import Mathlib

/-!
Shallow embedding of `AsyncBearerTokenCredentialPolicy`
(corehttp/runtime/policies/_authentication_async.py) and proofs about it.

Times are modelled as `Int` seconds (the source uses `time.time()` floats;
the claims only compare times with integer constants).  The async execution
of one call is modelled sequentially, with the lock acquisition/release and
the observable side effects (credential fetch, cached-token writes, header
writes, calls to the next pipeline stage, hook invocations) recorded in an
event trace.
-/

namespace BearerAuth

/-- Modelled from the spec: a named auth-flow descriptor is an opaque hint
passed to the credential source (the Python type is a dict); we model it as
an opaque string. -/
abbrev AuthFlow := String

/-- Modelled from the spec: `AccessTokenInfo` (from `corehttp.credentials`,
not under src/): bearer string `token`, absolute `expires_on`, optional
absolute `refresh_on` hint. -/
structure AccessTokenInfo where
  token : String
  expires_on : Int
  refresh_on : Option Int
deriving Repr, DecidableEq

/-- Modelled from the spec: `TokenRequestOptions` (from
`corehttp.credentials`, not under src/): an options payload that may carry
an `auth_flows` entry; `auth_flows = none` models the entry being absent. -/
structure TokenRequestOptions where
  auth_flows : Option (List AuthFlow)
deriving Repr, DecidableEq

/-- The mutable state of one `AsyncBearerTokenCredentialPolicy` instance:
the configured scopes, the configured default auth flows, and the cached
token (`self._token`, `None` when no token is cached). -/
structure PolicyState where
  scopes_ : List String
  auth_flows_ : Option (List AuthFlow)
  token_ : Option AccessTokenInfo
deriving Repr, DecidableEq

/-- Modelled from the spec: a pipeline request, at the boundary this
component touches it: whether its target is a secure transport, its
`Authorization` header (if set), and the `auth_flows` entry of its per-call
options bag (`none` models both an absent entry and an explicit `None`,
which the source treats alike). -/
structure Request where
  secure : Bool
  authorization : Option String
  options_auth_flows : Option (List AuthFlow)
deriving Repr, DecidableEq

/-- Modelled from the spec: a pipeline response, at the boundary this
component reads it: status code and presence of a `WWW-Authenticate`
header. -/
structure Response where
  status_code : Nat
  has_www_authenticate : Bool
deriving Repr, DecidableEq

/-- The credential source (`self._credential.get_token_info`), modelled as
a pure function of the current time, the scopes and the options.  Claims
quantify over it. -/
abbrev Credential := Int → List String → TokenRequestOptions → AccessTokenInfo

/-- `_need_new_token` (source lines 179-186): true when no token is cached,
or `refresh_on` is set and `refresh_on <= now`, or `expires_on - now < 300`. -/
def _need_new_token (s : PolicyState) (now : Int) : Bool :=
  match s.token_ with
  | none => true
  | some t =>
    (match t.refresh_on with
     | some r => decide (r ≤ now)
     | none => false)
    || decide (t.expires_on - now < 300)

/-- The refresh decision as evaluated in `on_request` (line 76 / line 79):
`self._token is None or self._need_new_token`. -/
def needsRefresh (s : PolicyState) (now : Int) : Bool :=
  s.token_.isNone || _need_new_token s now

/-- Observable events of one policy-method execution, in program order:
the guard (`self._lock`) being acquired and released, a credential fetch
with the options it was given, a write to the cached token field
(`self._token`), a write of the `Authorization` header, a call to the next
pipeline stage, the `on_response`/`on_exception` hooks, and the entry of
`on_request` recording the `auth_flows` argument it received. -/
inductive Event where
  | lockAcquire : Event
  | lockRelease : Event
  | fetch (options : TokenRequestOptions) : Event
  | tokenWrite (v : Option AccessTokenInfo) : Event
  | headerWrite (v : String) : Event
  | nextSend : Event
  | onResponseHook : Event
  | onExceptionHook : Event
  | authInject (auth_flows : Option (List AuthFlow)) : Event
deriving Repr, DecidableEq

/-- Exceptions the modelled code can raise: the transport-security error
(`ServiceRequestError` from `_enforce_https`), the `AttributeError` Python
would raise reading `.token` off a `None` cached token, and an arbitrary
exception propagating out of the next pipeline stage. -/
inductive Err where
  | serviceRequest : Err
  | noneToken : Err
  | nextFailure : Err
deriving Repr, DecidableEq

/-- Result of running `on_request` or `authorize_request`: the event trace,
the policy state and request after the call, and the exception raised, if
any (state and request are as they stood when the exception was raised). -/
structure StepOut where
  trace : List Event
  state : PolicyState
  request : Request
  err : Option Err
deriving Repr, DecidableEq

/-- Modelled from the spec:
`_BearerTokenCredentialPolicyBase._enforce_https` (defined in
`_authentication.py`, not under src/) fails with a transport-security error
iff the request's target is not a secure transport.  Returns `true` when
the request passes the check. -/
def _enforce_https (req : Request) : Bool :=
  req.secure

/-- The fetch options built on source line 80:
`{"auth_flows": auth_flows} if auth_flows else {}` — the entry is present
iff `auth_flows` is truthy, i.e. not `None` and not the empty list. -/
def fetchOptions (auth_flows : Option (List AuthFlow)) : TokenRequestOptions :=
  match auth_flows with
  | some fl => if fl = [] then ⟨none⟩ else ⟨some fl⟩
  | none => ⟨none⟩

/-- `on_request` (source lines 57-82), run at current time `now` with
credential source `cred`.  Sequential rendering of the async code: the
guard acquisition always succeeds immediately, so the double-checked
condition is evaluated twice in direct succession. -/
def on_request (cred : Credential) (now : Int) (s : PolicyState) (req : Request)
    (auth_flows : Option (List AuthFlow)) : StepOut :=
  let t0 : List Event := [.authInject auth_flows]
  -- line 72: if auth_flows is not None and len(auth_flows) == 0: return
  if auth_flows = some [] then ⟨t0, s, req, none⟩
  -- line 74: _BearerTokenCredentialPolicyBase._enforce_https(request)
  else if _enforce_https req = false then ⟨t0, s, req, some .serviceRequest⟩
  else
    -- lines 76-81: double-checked fetch under the lock
    let fetchStep : PolicyState × List Event :=
      if needsRefresh s now then
        if needsRefresh s now then
          let options := fetchOptions auth_flows
          let tok := cred now s.scopes_ options
          ({ s with token_ := some tok },
            t0 ++ [.lockAcquire, .fetch options, .tokenWrite (some tok), .lockRelease])
        else (s, t0 ++ [.lockAcquire, .lockRelease])
      else (s, t0)
    let s1 := fetchStep.1
    let t1 := fetchStep.2
    -- line 82: request.http_request.headers["Authorization"] = "Bearer " + self._token.token
    match s1.token_ with
    | some tok =>
      ⟨t1 ++ [.headerWrite ("Bearer " ++ tok.token)], s1,
        { req with authorization := some ("Bearer " ++ tok.token) }, none⟩
    | none => ⟨t1, s1, req, some .noneToken⟩

/-- `authorize_request` (source lines 84-101): unconditionally fetch a
token for the given scopes and options under the lock, cache it, and set
the `Authorization` header. -/
def authorize_request (cred : Credential) (now : Int) (s : PolicyState) (req : Request)
    (scopes : List String) (options : TokenRequestOptions) : StepOut :=
  let tok := cred now scopes options
  ⟨[.lockAcquire, .fetch options, .tokenWrite (some tok), .lockRelease,
      .headerWrite ("Bearer " ++ tok.token)],
    { s with token_ := some tok },
    { req with authorization := some ("Bearer " ++ tok.token) }, none⟩

/-- Result of running `send`: the event trace, the policy state and request
after the call, the returned response (`none` if an exception was raised),
and the exception raised, if any. -/
structure SendOut where
  trace : List Event
  state : PolicyState
  request : Request
  response : Option Response
  err : Option Err
deriving Repr, DecidableEq

/-- The effective `auth_flows` computed on source lines 113-114: the
per-call value popped from the request's options bag when present,
otherwise the policy-configured default. -/
def effectiveAuthFlows (s : PolicyState) (req : Request) : Option (List AuthFlow) :=
  match req.options_auth_flows with
  | some v => some v
  | none => s.auth_flows_

/-- `send` (source lines 103-135), run at current time `now`.  The next
pipeline stage is the oracle `next`: `next k` is the outcome of its `k`-th
invocation in this call (`none` models it raising an exception).  `chal` is
the outcome of the extensible `on_challenge` hook (the base implementation
always returns `false`, source line 153). -/
def send (cred : Credential) (chal : Bool) (now : Int) (next : Nat → Option Response)
    (s : PolicyState) (req : Request) : SendOut :=
  -- line 113: op_auth_flows = request.context.options.pop("auth_flows", None)
  let auth_flows := effectiveAuthFlows s req
  let req1 := { req with options_auth_flows := none }
  -- line 115: await_result(self.on_request, request, auth_flows=auth_flows)
  let o := on_request cred now s req1 auth_flows
  match o.err with
  | some e => ⟨o.trace, o.state, o.request, none, some e⟩
  | none =>
    -- lines 116-121: first send to the next policy, with hooks
    match next 0 with
    | none =>
      ⟨o.trace ++ [.nextSend, .onExceptionHook], o.state, o.request, none, some .nextFailure⟩
    | some resp =>
      let t1 := o.trace ++ [.nextSend, .onResponseHook]
      if resp.status_code = 401 then
        -- line 124: self._token = None  (any cached token is invalid)
        let s2 := { o.state with token_ := none }
        let t2 := t1 ++ [.tokenWrite none]
        if resp.has_www_authenticate then
          if chal then
            -- lines 128-133: resend once, with the same hook handling
            match next 1 with
            | none =>
              ⟨t2 ++ [.nextSend, .onExceptionHook], s2, o.request, none, some .nextFailure⟩
            | some resp2 =>
              ⟨t2 ++ [.nextSend, .onResponseHook], s2, o.request, some resp2, none⟩
          else ⟨t2, s2, o.request, some resp, none⟩
        else ⟨t2, s2, o.request, some resp, none⟩
      else ⟨t1, o.state, o.request, some resp, none⟩

/-- Whether an event is a credential fetch. -/
def Event.isFetch : Event → Bool
  | .fetch _ => true
  | _ => false

/-- Whether an event is an invocation of the next pipeline stage. -/
def Event.isNextSend : Event → Bool
  | .nextSend => true
  | _ => false

/-- Whether an event is a write of the `Authorization` header. -/
def Event.isHeaderWrite : Event → Bool
  | .headerWrite _ => true
  | _ => false

/-- Number of credential fetches in a trace. -/
def fetchCount (tr : List Event) : Nat :=
  tr.countP Event.isFetch

/-- Number of invocations of the next pipeline stage in a trace. -/
def nextCount (tr : List Event) : Nat :=
  tr.countP Event.isNextSend

/-- The options of each credential fetch in a trace, in order. -/
def fetchArgs : List Event → List TokenRequestOptions
  | [] => []
  | .fetch o :: es => o :: fetchArgs es
  | _ :: es => fetchArgs es

/-- The `auth_flows` argument of each `on_request` entry in a trace. -/
def injectArgs : List Event → List (Option (List AuthFlow))
  | [] => []
  | .authInject fl :: es => fl :: injectArgs es
  | _ :: es => injectArgs es

/-- Lock-nesting depth after a trace, starting from depth `d`. -/
def depthAfter : List Event → Nat → Nat
  | [], d => d
  | .lockAcquire :: es, d => depthAfter es (d + 1)
  | .lockRelease :: es, d => depthAfter es (d - 1)
  | _ :: es, d => depthAfter es d

/-- The values written to the cached token field while the guard is NOT
held (lock depth zero), starting from depth `d`. -/
def unlockedWrites : List Event → Nat → List (Option AccessTokenInfo)
  | [], _ => []
  | .lockAcquire :: es, d => unlockedWrites es (d + 1)
  | .lockRelease :: es, d => unlockedWrites es (d - 1)
  | .tokenWrite v :: es, d =>
    if d = 0 then v :: unlockedWrites es d else unlockedWrites es d
  | _ :: es, d => unlockedWrites es d
/-- One `send` call of a sequence on the same policy instance: the time at
which it runs, its next-stage oracle, and its request. -/
structure SendCall where
  now : Int
  next : Nat → Option Response
  req : Request

/-- Run a list of `send` calls sequentially on one policy instance,
threading the policy state and accumulating the number of credential
fetches across all calls. -/
def runSends (cred : Credential) (chal : Bool) :
    PolicyState → List SendCall → PolicyState × Nat
  | s, [] => (s, 0)
  | s, c :: cs =>
    let o := send cred chal c.now c.next s c.req
    let rest := runSends cred chal o.state cs
    (rest.1, fetchCount o.trace + rest.2)

/-- A token is comfortably fresh at time `n`: its `refresh_on` is unset or
in the future and more than 300 seconds remain until its `expires_on`. -/
def freshAt (t : AccessTokenInfo) (n : Int) : Prop :=
  (∀ r, t.refresh_on = some r → n < r) ∧ 300 < t.expires_on - n

/-- C1: the refresh decision is true iff no token is cached, or the token's
`refresh_on` is set and has passed, or fewer than 300 seconds remain until
the token's `expires_on`. -/
theorem needsRefresh_iff (s : PolicyState) (now : Int) :
    needsRefresh s now = true ↔
      s.token_ = none ∨
        ∃ t, s.token_ = some t ∧
          ((∃ r, t.refresh_on = some r ∧ r ≤ now) ∨ t.expires_on - now < 300) := by
  cases htok : s.token_ with
  | none => simp [needsRefresh, _need_new_token, htok]
  | some t =>
    cases hr : t.refresh_on with
    | none =>
      simp [needsRefresh, _need_new_token, htok, hr]
    | some r =>
      simp [needsRefresh, _need_new_token, htok, hr]



theorem fetchArgs_append (xs ys : List Event) :
    fetchArgs (xs ++ ys) = fetchArgs xs ++ fetchArgs ys := by
  induction xs with
  | nil => rfl
  | cons e es ih => cases e <;> simp [fetchArgs, ih]

theorem injectArgs_append (xs ys : List Event) :
    injectArgs (xs ++ ys) = injectArgs xs ++ injectArgs ys := by
  induction xs with
  | nil => rfl
  | cons e es ih => cases e <;> simp [injectArgs, ih]

theorem depthAfter_append (xs ys : List Event) (d : Nat) :
    depthAfter (xs ++ ys) d = depthAfter ys (depthAfter xs d) := by
  induction xs generalizing d with
  | nil => rfl
  | cons e es ih => cases e <;> simp [depthAfter, ih]

theorem unlockedWrites_append (xs ys : List Event) (d : Nat) :
    unlockedWrites (xs ++ ys) d =
      unlockedWrites xs d ++ unlockedWrites ys (depthAfter xs d) := by
  induction xs generalizing d with
  | nil => rfl
  | cons e es ih =>
    cases e <;> simp [unlockedWrites, depthAfter, ih]
    split <;> simp

/-- C2: with an explicitly empty `auth_flows` list, `on_request` is a
no-op: no fetch, no event at all besides its entry, cached token and the
whole state unchanged, request (hence its `Authorization` header)
unchanged, and no error. -/
theorem on_request_empty_flows_noop (cred : Credential) (now : Int)
    (s : PolicyState) (req : Request) :
    on_request cred now s req (some []) =
      ⟨[.authInject (some [])], s, req, none⟩ := by
  simp [on_request]

/-- C3: with `auth_flows` not an explicitly empty list and an insecure
target, `on_request` fails with the transport-security error, with no fetch
event and no header write in its trace and the state (hence the cached
token) and request unchanged. -/
theorem on_request_insecure_fails (cred : Credential) (now : Int)
    (s : PolicyState) (req : Request) (auth_flows : Option (List AuthFlow))
    (hfl : auth_flows ≠ some []) (hsec : req.secure = false) :
    on_request cred now s req auth_flows =
      ⟨[.authInject auth_flows], s, req, some .serviceRequest⟩ ∧
      fetchCount (on_request cred now s req auth_flows).trace = 0 ∧
      (on_request cred now s req auth_flows).trace.countP Event.isHeaderWrite = 0 := by
  refine ⟨?_, ?_, ?_⟩ <;> simp [on_request, _enforce_https, hfl, hsec] <;>
    simp [fetchCount, List.countP, List.countP.go, Event.isFetch, Event.isHeaderWrite]

/-- Witness for C3 at a concrete input. -/
theorem on_request_insecure_fails_witness :
    (none : Option (List AuthFlow)) ≠ some [] ∧
      (Request.mk false none none).secure = false ∧
      on_request (fun _ _ _ => ⟨"t", 1000, none⟩) 0
          ⟨[], none, none⟩ ⟨false, none, none⟩ none =
        ⟨[.authInject none], ⟨[], none, none⟩, ⟨false, none, none⟩,
          some .serviceRequest⟩ :=
  ⟨by simp, rfl,
    (on_request_insecure_fails (fun _ _ _ => ⟨"t", 1000, none⟩) 0
      ⟨[], none, none⟩ ⟨false, none, none⟩ none (by simp) rfl).1⟩

/-- C10: `on_request` raises the transport-security error iff `auth_flows`
is not an explicitly empty list and the target is insecure; in particular
with `auth_flows = []` on an insecure target it returns without error. -/
theorem on_request_error_iff (cred : Credential) (now : Int)
    (s : PolicyState) (req : Request) (auth_flows : Option (List AuthFlow)) :
    ((on_request cred now s req auth_flows).err = some .serviceRequest ↔
      auth_flows ≠ some [] ∧ req.secure = false) ∧
    (auth_flows = some [] → (on_request cred now s req auth_flows).err = none) := by
  constructor
  · by_cases hfl : auth_flows = some []
    · simp [on_request, hfl]
    · by_cases hsec : req.secure
      · simp only [on_request, _enforce_https, hfl, hsec]
        simp [hsec]
        split <;> simp
      · simp [on_request, _enforce_https, hfl]
        simp at hsec
        simp [hsec]
  · intro hfl
    simp [on_request, hfl]

/-- Witness for C10 at a concrete input. -/
theorem on_request_error_iff_witness :
    (on_request (fun _ _ _ => ⟨"t", 1000, none⟩) 0 ⟨[], none, none⟩
        ⟨false, none, none⟩ (some [])).err = none :=
  (on_request_error_iff (fun _ _ _ => ⟨"t", 1000, none⟩) 0 ⟨[], none, none⟩
    ⟨false, none, none⟩ (some [])).2 rfl

/-- C5: `authorize_request` fetches a new token unconditionally (for every
prior state, in particular whatever token is cached), under the guard (no
unguarded token write, exactly one fetch, performed at positive lock
depth), replaces the cached token with the fetched one, and sets the
`Authorization` header to the literal prefix "Bearer " followed by the new
token's value. -/
theorem authorize_request_unconditional (cred : Credential) (now : Int)
    (s : PolicyState) (req : Request) (scopes : List String)
    (options : TokenRequestOptions) :
    (authorize_request cred now s req scopes options).state.token_ =
        some (cred now scopes options) ∧
    (authorize_request cred now s req scopes options).request.authorization =
        some ("Bearer " ++ (cred now scopes options).token) ∧
    fetchArgs (authorize_request cred now s req scopes options).trace = [options] ∧
    unlockedWrites (authorize_request cred now s req scopes options).trace 0 = [] ∧
    (authorize_request cred now s req scopes options).err = none := by
  refine ⟨rfl, rfl, rfl, ?_, rfl⟩
  simp [authorize_request, unlockedWrites]

/-- Exhaustive case analysis of `on_request`: it either (1) returns
immediately on an explicitly empty `auth_flows`, (2) raises the
transport-security error, (3) finds the cached token fresh and only writes
the header, or (4) fetches under the lock, caches the fetched token and
writes the header. -/
theorem on_request_spec (cred : Credential) (now : Int) (s : PolicyState)
    (req : Request) (fl : Option (List AuthFlow)) :
    (fl = some [] ∧ on_request cred now s req fl = ⟨[.authInject fl], s, req, none⟩) ∨
    (fl ≠ some [] ∧ req.secure = false ∧
      on_request cred now s req fl = ⟨[.authInject fl], s, req, some .serviceRequest⟩) ∨
    (fl ≠ some [] ∧ req.secure = true ∧ needsRefresh s now = false ∧
      ∃ t, s.token_ = some t ∧
        on_request cred now s req fl =
          ⟨[.authInject fl, .headerWrite ("Bearer " ++ t.token)], s,
            { req with authorization := some ("Bearer " ++ t.token) }, none⟩) ∨
    (fl ≠ some [] ∧ req.secure = true ∧ needsRefresh s now = true ∧
      on_request cred now s req fl =
        ⟨[.authInject fl, .lockAcquire, .fetch (fetchOptions fl),
            .tokenWrite (some (cred now s.scopes_ (fetchOptions fl))), .lockRelease,
            .headerWrite ("Bearer " ++ (cred now s.scopes_ (fetchOptions fl)).token)],
          { s with token_ := some (cred now s.scopes_ (fetchOptions fl)) },
          { req with authorization := some ("Bearer " ++ (cred now s.scopes_ (fetchOptions fl)).token) },
          none⟩) := by
  by_cases hfl : fl = some []
  · exact Or.inl ⟨hfl, by simp [on_request, hfl]⟩
  · by_cases hsec : req.secure
    · by_cases href : needsRefresh s now
      · refine Or.inr (Or.inr (Or.inr ⟨hfl, hsec, href, ?_⟩))
        simp [on_request, _enforce_https, hfl, hsec, href]
      · refine Or.inr (Or.inr (Or.inl ⟨hfl, hsec, by simpa using href, ?_⟩))
        have htok : ∃ t, s.token_ = some t := by
          cases htok : s.token_ with
          | none => exact absurd (by simp [needsRefresh, htok]) href
          | some t => exact ⟨t, rfl⟩
        obtain ⟨t, htok⟩ := htok
        refine ⟨t, htok, ?_⟩
        simp [on_request, _enforce_https, hfl, hsec, href, htok]
    · refine Or.inr (Or.inl ⟨hfl, by simpa using hsec, ?_⟩)
      simp [on_request, _enforce_https, hfl]
      simp at hsec
      simp [hsec]

/-- `send`'s trace is `on_request`'s trace (at the effective `auth_flows`,
on the request with the per-call entry popped) followed by a tail that
contains no `on_request` entry, no fetch, and at most two invocations of
the next stage, and whose only unguarded token writes write `none`. -/
theorem send_trace_shape (cred : Credential) (chal : Bool) (now : Int)
    (next : Nat → Option Response) (s : PolicyState) (req : Request) :
    ∃ rest, (send cred chal now next s req).trace =
        (on_request cred now s { req with options_auth_flows := none }
          (effectiveAuthFlows s req)).trace ++ rest ∧
      injectArgs rest = [] ∧ fetchArgs rest = [] ∧
      (unlockedWrites rest 0 = [] ∨ unlockedWrites rest 0 = [none]) ∧
      nextCount rest ≤ 2 := by
  simp only [send]
  split
  · exact ⟨[], by simp, rfl, rfl, Or.inl rfl, by simp [nextCount]⟩
  · split
    · exact ⟨[.nextSend, .onExceptionHook], by simp, rfl, rfl, Or.inl rfl,
        by simp [nextCount, List.countP, List.countP.go, Event.isNextSend]⟩
    · split
      · split
        · split
          · split
            · exact ⟨[.nextSend, .onResponseHook, .tokenWrite none, .nextSend,
                .onExceptionHook], by simp, rfl, rfl,
                Or.inr (by simp [unlockedWrites]),
                by simp [nextCount, List.countP, List.countP.go, Event.isNextSend]⟩
            · exact ⟨[.nextSend, .onResponseHook, .tokenWrite none, .nextSend,
                .onResponseHook], by simp, rfl, rfl,
                Or.inr (by simp [unlockedWrites]),
                by simp [nextCount, List.countP, List.countP.go, Event.isNextSend]⟩
          · exact ⟨[.nextSend, .onResponseHook, .tokenWrite none], by simp, rfl, rfl,
              Or.inr (by simp [unlockedWrites]),
              by simp [nextCount, List.countP, List.countP.go, Event.isNextSend]⟩
        · exact ⟨[.nextSend, .onResponseHook, .tokenWrite none], by simp, rfl, rfl,
            Or.inr (by simp [unlockedWrites]),
            by simp [nextCount, List.countP, List.countP.go, Event.isNextSend]⟩
      · exact ⟨[.nextSend, .onResponseHook], by simp, rfl, rfl, Or.inl rfl,
          by simp [nextCount, List.countP, List.countP.go, Event.isNextSend]⟩

/-- C8: in `send`, `on_request` is invoked exactly once, with the per-call
`auth_flows` override from the request's options bag when present and the
policy-configured default otherwise; and every credential fetch of the call
carries exactly the options built from that effective value (in particular,
an override's flows and not the policy's configured flows). -/
theorem send_effective_auth_flows (cred : Credential) (chal : Bool) (now : Int)
    (next : Nat → Option Response) (s : PolicyState) (req : Request) :
    injectArgs (send cred chal now next s req).trace = [effectiveAuthFlows s req] ∧
    (fetchArgs (send cred chal now next s req).trace = [] ∨
      fetchArgs (send cred chal now next s req).trace =
        [fetchOptions (effectiveAuthFlows s req)]) := by
  obtain ⟨rest, htr, hinj, hfetch, -, -⟩ :=
    send_trace_shape cred chal now next s req
  have hon := on_request_spec cred now s { req with options_auth_flows := none }
    (effectiveAuthFlows s req)
  rcases hon with ⟨-, h⟩ | ⟨-, -, h⟩ | ⟨-, -, -, t, -, h⟩ | ⟨-, -, -, h⟩ <;>
    rw [htr, h] <;>
    simp [injectArgs_append, fetchArgs_append, injectArgs, fetchArgs, hinj, hfetch]

/-- Trace observations common to all `on_request` outcomes: no unguarded
token write, balanced lock usage, no invocation of the next stage, and at
most one fetch. -/
theorem on_request_obs (cred : Credential) (now : Int) (s : PolicyState)
    (req : Request) (fl : Option (List AuthFlow)) :
    unlockedWrites (on_request cred now s req fl).trace 0 = [] ∧
    depthAfter (on_request cred now s req fl).trace 0 = 0 ∧
    nextCount (on_request cred now s req fl).trace = 0 ∧
    fetchCount (on_request cred now s req fl).trace ≤ 1 := by
  rcases on_request_spec cred now s req fl with
    ⟨-, h⟩ | ⟨-, -, h⟩ | ⟨-, -, -, t, -, h⟩ | ⟨-, -, -, h⟩ <;> rw [h] <;>
    exact ⟨rfl, rfl, rfl, by
      simp [fetchCount, List.countP_cons, List.countP_nil, Event.isFetch]⟩

/-- Counterexample to C9 as stated: a concrete `send` whose response is a
401 performs a write to the cached token (the invalidation on source line
124) while the guard is not held. -/
theorem send_unguarded_write_cex :
    unlockedWrites
        (send (fun _ _ _ => ⟨"tok", 1000000, none⟩) false 0
          (fun _ => some ⟨401, false⟩) ⟨[], none, none⟩ ⟨true, none, none⟩).trace 0
      ≠ [] := by
  decide

/-- C9 amended: every mutation of the cached token in `on_request` and in
`authorize_request` occurs while the guard is held; in `send`, the only
writes performed without the guard are the 401 invalidation writes of
`none` (clearing the cache), never a write of a token. -/
theorem token_writes_guarded_amended (cred : Credential) (chal : Bool) (now : Int)
    (next : Nat → Option Response) (s : PolicyState) (req : Request)
    (fl : Option (List AuthFlow)) (scopes : List String)
    (options : TokenRequestOptions) :
    unlockedWrites (on_request cred now s req fl).trace 0 = [] ∧
    unlockedWrites (authorize_request cred now s req scopes options).trace 0 = [] ∧
    ((unlockedWrites (send cred chal now next s req).trace 0).all
      fun v => v.isNone) = true := by
  refine ⟨(on_request_obs cred now s req fl).1, ?_, ?_⟩
  · simp [authorize_request, unlockedWrites]
  · obtain ⟨rest, htr, -, -, hw, -⟩ := send_trace_shape cred chal now next s req
    obtain ⟨h1, h2, -, -⟩ := on_request_obs cred now s
      { req with options_auth_flows := none } (effectiveAuthFlows s req)
    rw [htr, unlockedWrites_append, h1, h2]
    rcases hw with hw | hw <;> simp [hw]

/-- C6: when the first forwarded response is a 401, the cached token is
cleared unconditionally; and if the response carries no `WWW-Authenticate`
header or the challenge handler returns `false` (the base `on_challenge`
always does), the original 401 response is returned with exactly one
invocation of the next stage and no error. -/
theorem send_401_no_retry (cred : Credential) (chal : Bool) (now : Int)
    (next : Nat → Option Response) (s : PolicyState) (req : Request) (r : Response)
    (herr : (on_request cred now s { req with options_auth_flows := none }
      (effectiveAuthFlows s req)).err = none)
    (h0 : next 0 = some r) (h401 : r.status_code = 401) :
    (send cred chal now next s req).state.token_ = none ∧
    (r.has_www_authenticate = false ∨ chal = false →
      (send cred chal now next s req).response = some r ∧
      nextCount (send cred chal now next s req).trace = 1 ∧
      (send cred chal now next s req).err = none) := by
  have hnc := (on_request_obs cred now s { req with options_auth_flows := none }
    (effectiveAuthFlows s req)).2.2.1
  simp only [send]
  split
  · simp_all
  · split
    · simp_all
    · rename_i resp hresp
      rw [h0] at hresp
      injection hresp with hresp
      subst hresp
      rw [if_pos h401]
      by_cases hwww : r.has_www_authenticate
      · rw [if_pos hwww]
        by_cases hchal : chal
        · rw [if_pos hchal]
          constructor
          · split <;> rfl
          · rintro (h | h)
            · exact absurd hwww (by simp [h])
            · exact absurd hchal (by simp [h])
        · rw [if_neg hchal]
          refine ⟨rfl, fun _ => ⟨rfl, ?_, rfl⟩⟩
          simp [nextCount, List.countP_append, List.countP_cons, List.countP_nil,
            Event.isNextSend] at hnc ⊢
          simpa [nextCount] using hnc
      · rw [if_neg hwww]
        refine ⟨rfl, fun _ => ⟨rfl, ?_, rfl⟩⟩
        simp [nextCount, List.countP_append, List.countP_cons, List.countP_nil,
          Event.isNextSend] at hnc ⊢
        simpa [nextCount] using hnc

/-- Witness for C6 at a concrete input. -/
theorem send_401_no_retry_witness :
    (send (fun _ _ _ => ⟨"tok", 1000000, none⟩) false 0
        (fun _ => some ⟨401, false⟩) ⟨[], none, none⟩ ⟨true, none, none⟩).state.token_ =
      none ∧
    (send (fun _ _ _ => ⟨"tok", 1000000, none⟩) false 0
        (fun _ => some ⟨401, false⟩) ⟨[], none, none⟩ ⟨true, none, none⟩).response =
      some ⟨401, false⟩ ∧
    nextCount (send (fun _ _ _ => ⟨"tok", 1000000, none⟩) false 0
        (fun _ => some ⟨401, false⟩) ⟨[], none, none⟩ ⟨true, none, none⟩).trace = 1 := by
  have h := send_401_no_retry (fun _ _ _ => ⟨"tok", 1000000, none⟩) false 0
    (fun _ => some ⟨401, false⟩) ⟨[], none, none⟩ ⟨true, none, none⟩ ⟨401, false⟩
    (by decide) rfl rfl
  exact ⟨h.1, (h.2 (Or.inl rfl)).1, (h.2 (Or.inl rfl)).2.1⟩

/-- C7: every execution of `send` invokes the next stage at most twice; and
when the first response is a 401 with a `WWW-Authenticate` header and the
challenge handler returns `true`, the request is resent exactly once (next
stage invoked exactly twice) and, when the resend yields a response, that
second response is returned as final — regardless of its status. -/
theorem send_retry_once (cred : Credential) (chal : Bool) (now : Int)
    (next : Nat → Option Response) (s : PolicyState) (req : Request) :
    nextCount (send cred chal now next s req).trace ≤ 2 ∧
    (∀ r, next 0 = some r → r.status_code = 401 → r.has_www_authenticate = true →
      chal = true →
      (on_request cred now s { req with options_auth_flows := none }
        (effectiveAuthFlows s req)).err = none →
      nextCount (send cred chal now next s req).trace = 2 ∧
      ∀ r2, next 1 = some r2 →
        (send cred chal now next s req).response = some r2 ∧
        (send cred chal now next s req).err = none) := by
  have hnc := (on_request_obs cred now s { req with options_auth_flows := none }
    (effectiveAuthFlows s req)).2.2.1
  constructor
  · obtain ⟨rest, htr, -, -, -, hle⟩ := send_trace_shape cred chal now next s req
    rw [htr]
    simp only [nextCount, List.countP_append] at *
    omega
  · intro r h0 h401 hwww hchal herr
    simp only [send]
    split
    · simp_all
    · split
      · simp_all
      · rename_i resp hresp
        rw [h0] at hresp
        injection hresp with hresp
        subst hresp
        rw [if_pos h401, if_pos hwww, if_pos hchal]
        constructor
        · split <;>
            · simp [nextCount, List.countP_append, List.countP_cons, List.countP_nil,
                Event.isNextSend] at hnc ⊢
              simpa [nextCount] using hnc
        · intro r2 h1
          split
          · simp_all
          · rename_i resp2 hresp2
            rw [h1] at hresp2
            injection hresp2 with hresp2
            subst hresp2
            exact ⟨rfl, rfl⟩

/-- Witness for C7 at a concrete input: a 401 challenge accepted by the
handler, with a second 401 coming back, still yields exactly two sends and
the second response as final. -/
theorem send_retry_once_witness :
    nextCount (send (fun _ _ _ => ⟨"tok", 1000000, none⟩) true 0
        (fun _ => some ⟨401, true⟩) ⟨[], none, none⟩ ⟨true, none, none⟩).trace = 2 ∧
    (send (fun _ _ _ => ⟨"tok", 1000000, none⟩) true 0
        (fun _ => some ⟨401, true⟩) ⟨[], none, none⟩ ⟨true, none, none⟩).response =
      some ⟨401, true⟩ := by
  have h := (send_retry_once (fun _ _ _ => ⟨"tok", 1000000, none⟩) true 0
    (fun _ => some ⟨401, true⟩) ⟨[], none, none⟩ ⟨true, none, none⟩).2
    ⟨401, true⟩ rfl rfl rfl rfl (by decide)
  exact ⟨h.1, (h.2 ⟨401, true⟩ rfl).1⟩


theorem needsRefresh_false_of_fresh (s : PolicyState) (now : Int)
    (t : AccessTokenInfo) (ht : s.token_ = some t) (hf : freshAt t now) :
    needsRefresh s now = false := by
  obtain ⟨hr, he⟩ := hf
  simp only [needsRefresh, _need_new_token, ht, Option.isNone_some, Bool.false_or]
  cases hrr : t.refresh_on with
  | none => simp; omega
  | some r =>
    have := hr r hrr
    simp only [Bool.or_eq_false_iff, decide_eq_false_iff_not]
    omega

/-- `on_request` either performs no fetch and leaves the state unchanged,
or performs exactly one fetch and caches the fetched token; and when the
cached token is fresh at the current time, the first alternative holds. -/
theorem on_request_fetch_cases (cred : Credential) (now : Int) (s : PolicyState)
    (req : Request) (fl : Option (List AuthFlow)) :
    ((on_request cred now s req fl).state = s ∧
      fetchCount (on_request cred now s req fl).trace = 0) ∨
    (fetchCount (on_request cred now s req fl).trace = 1 ∧
      (on_request cred now s req fl).state =
        { s with token_ := some (cred now s.scopes_ (fetchOptions fl)) }) := by
  rcases on_request_spec cred now s req fl with
    ⟨-, h⟩ | ⟨-, -, h⟩ | ⟨-, -, -, t, -, h⟩ | ⟨-, -, -, h⟩ <;> rw [h]
  · exact Or.inl ⟨rfl, rfl⟩
  · exact Or.inl ⟨rfl, rfl⟩
  · exact Or.inl ⟨rfl, by
      simp [fetchCount, List.countP_cons, List.countP_nil, Event.isFetch]⟩
  · exact Or.inr ⟨by
      simp [fetchCount, List.countP_cons, List.countP_nil, Event.isFetch], rfl⟩

theorem on_request_fresh_no_fetch (cred : Credential) (now : Int) (s : PolicyState)
    (req : Request) (fl : Option (List AuthFlow)) (t : AccessTokenInfo)
    (ht : s.token_ = some t) (hf : freshAt t now) :
    (on_request cred now s req fl).state = s ∧
    fetchCount (on_request cred now s req fl).trace = 0 := by
  have href := needsRefresh_false_of_fresh s now t ht hf
  rcases on_request_spec cred now s req fl with
    ⟨-, h⟩ | ⟨-, -, h⟩ | ⟨-, -, -, t', -, h⟩ | ⟨-, -, h4, -⟩
  · rw [h]
    exact ⟨rfl, rfl⟩
  · rw [h]
    exact ⟨rfl, rfl⟩
  · rw [h]
    refine ⟨rfl, ?_⟩
    simp [fetchCount, List.countP_cons, List.countP_nil, Event.isFetch]
  · exact absurd h4 (by simp [href])

/-- A `send` whose next-stage oracle never answers 401 leaves the policy
state exactly as `on_request` left it and fetches exactly as often as
`on_request` did. -/
theorem send_no401_step (cred : Credential) (chal : Bool) (now : Int)
    (next : Nat → Option Response) (s : PolicyState) (req : Request)
    (hno401 : ∀ r, next 0 = some r → r.status_code ≠ 401) :
    (send cred chal now next s req).state =
      (on_request cred now s { req with options_auth_flows := none }
        (effectiveAuthFlows s req)).state ∧
    fetchCount (send cred chal now next s req).trace =
      fetchCount (on_request cred now s { req with options_auth_flows := none }
        (effectiveAuthFlows s req)).trace := by
  simp only [send]
  split
  · exact ⟨rfl, rfl⟩
  · split
    · exact ⟨rfl, by
        simp [fetchCount, List.countP_append, List.countP_cons, List.countP_nil,
          Event.isFetch]⟩
    · rename_i resp hresp
      rw [if_neg (hno401 resp hresp)]
      exact ⟨rfl, by
        simp [fetchCount, List.countP_append, List.countP_cons, List.countP_nil,
          Event.isFetch]⟩

/-- When a fresh token is cached and every call of the sequence sees it
fresh and gets no 401 back, no fetch at all happens. -/
theorem runSends_no_fetch (cred : Credential) (chal : Bool) (s : PolicyState)
    (calls : List SendCall) (t : AccessTokenInfo) (ht : s.token_ = some t)
    (hfresh : ∀ c ∈ calls, freshAt t c.now)
    (hno401 : ∀ c ∈ calls, ∀ r, c.next 0 = some r → r.status_code ≠ 401) :
    (runSends cred chal s calls).2 = 0 := by
  induction calls with
  | nil => rfl
  | cons c cs ih =>
    have hstep := send_no401_step cred chal c.now c.next s c.req
      (hno401 c (by simp))
    have hfr := on_request_fresh_no_fetch cred c.now s
      { c.req with options_auth_flows := none } (effectiveAuthFlows s c.req) t ht
      (hfresh c (by simp))
    simp only [runSends, hstep.1, hstep.2, hfr.1, hfr.2, Nat.zero_add]
    exact ih (fun c' hc' => hfresh c' (by simp [hc']))
      (fun c' hc' => hno401 c' (by simp [hc']))

/-- C4: over any sequence of `send` calls on one policy instance in which
every token the credential source can return, and the initially cached
token if any, stays comfortably fresh (`expires_on` more than 300 seconds
in the future, `refresh_on` unset or in the future) at every call time, and
no call is answered with a 401 (which would clear the cache, so the cached
token would not stay), the credential source is fetched at most once. -/
theorem runSends_at_most_one_fetch (cred : Credential) (chal : Bool)
    (s : PolicyState) (calls : List SendCall)
    (hcred : ∀ (m : Int) (opts : TokenRequestOptions), ∀ c ∈ calls,
      freshAt (cred m s.scopes_ opts) c.now)
    (hinit : ∀ t, s.token_ = some t → ∀ c ∈ calls, freshAt t c.now)
    (hno401 : ∀ c ∈ calls, ∀ r, c.next 0 = some r → r.status_code ≠ 401) :
    (runSends cred chal s calls).2 ≤ 1 := by
  induction calls generalizing s with
  | nil => exact Nat.zero_le 1
  | cons c cs ih =>
    have hstep := send_no401_step cred chal c.now c.next s c.req
      (hno401 c (by simp))
    rcases on_request_fetch_cases cred c.now s
      { c.req with options_auth_flows := none } (effectiveAuthFlows s c.req) with
      ⟨hst, hfc⟩ | ⟨hfc, hst⟩
    · simp only [runSends, hstep.1, hstep.2, hst, hfc, Nat.zero_add]
      exact ih s (fun m opts c' hc' => hcred m opts c' (by simp [hc']))
        (fun t' ht' c' hc' => hinit t' ht' c' (by simp [hc']))
        (fun c' hc' => hno401 c' (by simp [hc']))
    · simp only [runSends, hstep.1, hstep.2, hst, hfc]
      have hrest : (runSends cred chal
          { s with token_ := some (cred c.now s.scopes_
              (fetchOptions (effectiveAuthFlows s c.req))) } cs).2 = 0 :=
        runSends_no_fetch cred chal _ cs _ rfl
          (fun c' hc' => hcred c.now _ c' (by simp [hc']))
          (fun c' hc' => hno401 c' (by simp [hc']))
      omega

/-- Witness for C4 at a concrete input: two calls with a fresh-token
credential and 200 responses fetch at most once. -/
theorem runSends_at_most_one_fetch_witness :
    (runSends (fun _ _ _ => ⟨"tok", 1000000, none⟩) false ⟨[], none, none⟩
        [⟨0, fun _ => some ⟨200, false⟩, ⟨true, none, none⟩⟩,
          ⟨1, fun _ => some ⟨200, false⟩, ⟨true, none, none⟩⟩]).2 ≤ 1 := by
  refine runSends_at_most_one_fetch (fun _ _ _ => ⟨"tok", 1000000, none⟩) false
    ⟨[], none, none⟩ _ ?_ ?_ ?_
  · intro m opts c hc
    have : c.now = 0 ∨ c.now = 1 := by
      simp at hc
      rcases hc with rfl | rfl
      · exact Or.inl rfl
      · exact Or.inr rfl
    refine ⟨fun r h => by simp at h, ?_⟩
    rcases this with h | h <;> rw [h] <;> norm_num
  · intro t ht
    simp at ht
  · intro c hc r h
    have hr : r = ⟨200, false⟩ := by
      simp at hc
      rcases hc with rfl | rfl <;> simpa using h.symm
    rw [hr]
    decide

end BearerAuth
